import Mathlib

/-!
Verification of the Form-Flow form-fill engine
(`services/pdf/pdf_writer.py`, `services/pdf/text_fitter.py`,
`services/pdf/abbreviations.py`) against its natural-language specification.

Modelling conventions:
* A Python `str` is modelled as `List Char` (abbreviated `Str`).  The
  Python string operations used by the engine (`.lower()`, `.strip()`,
  slicing, `re.sub` with the concrete patterns appearing in the source,
  `in`, `startswith`) are given explicit executable models below.
  Character-class predicates (`\d`, `\w`, `\s`, `.lower()`) are modelled
  with their ASCII meaning; the engine's own constants are all ASCII.
* Python `float` arithmetic on the small decimal constants used by the
  scoring code (0.2, 0.3, 0.4, 0.8, 0.95, 0.98, 0.1, 1.0) is modelled
  exactly with `Rat`.
* `difflib.SequenceMatcher(...).ratio()` and
  `difflib.get_close_matches(...)` are external similarity algorithms the
  engine treats as oracles; they are modelled as explicit function
  parameters threaded through the definitions.
* The local LLM compression service (`services.ai.local_llm`, not part of
  the sources) and the PDF/reportlab I/O layer are modelled as explicit
  environment records: every fallible external call becomes an
  `Except`/`Option` valued field of the environment, and the engine's
  `try/except` blocks become `match`es on those fields.
-/

/-- Python `str` modelled as a list of characters. -/
abbrev Str := List Char

/-- Characters of a Lean string literal, used to write `Str` constants. -/
def str (s : String) : Str := s.data

/-- ASCII model of the regex class `\d` (`Char.isDigit`). -/
def isDigitChar (c : Char) : Bool := c.isDigit

/-- ASCII model of Python `str.lower` applied characterwise. -/
def lowerStr (s : Str) : Str := s.map Char.toLower

/-- ASCII model of the regex class `\w` (word character). -/
def isWordChar (c : Char) : Bool := c.isAlphanum || c == '_'

/-- Word-character test on an optional character; `none` (outside the
string) counts as a non-word position, matching Python `\b` semantics. -/
def isWordOpt : Option Char → Bool
  | none => false
  | some c => isWordChar c

/-- Python `str.strip()`: drop leading and trailing whitespace. -/
def pyStrip (s : Str) : Str :=
  ((s.dropWhile Char.isWhitespace).reverse.dropWhile Char.isWhitespace).reverse

/-- Python slice `s[:n]` for a possibly negative bound `n`. -/
def pySliceTo (s : Str) (n : Int) : Str :=
  if 0 ≤ n then s.take n.toNat else s.take (s.length - (-n).toNat)

/-- Model of `re.sub(r'\D', '', value)`: keep only the digits. -/
def digitsOf (s : Str) : Str := s.filter isDigitChar

/-- Numeric value of a list of ASCII digit characters (most significant
first), as read by `int`/`strptime`. -/
def charsToNat (l : Str) : Nat :=
  l.foldl (fun acc c => acc * 10 + (c.toNat - '0'.toNat)) 0

/-- Two-digit zero-padded decimal rendering, as produced by `strftime`
`%m` / `%d` for the in-range values the engine feeds it. -/
def pad2 (n : Nat) : Str := [Nat.digitChar (n / 10), Nat.digitChar (n % 10)]

/-- Decimal rendering used for the `%Y` component of `strftime`.  (For
years below 1000 the exact padding is platform dependent in CPython; no
theorem below depends on it, only on the output containing `/`.) -/
def yearChars (n : Nat) : Str := (toString n).data

/-! ## ValueTransformer (`pdf_writer.py`, lines 98-145) -/

/-- Embeds `ValueTransformer._format_phone`: if the value contains
exactly 10 digits, reformat as `(DDD) DDD-DDDD`; otherwise return it
unchanged. -/
def formatPhone (value : Str) : Str :=
  if (digitsOf value).length = 10 then
    '(' :: (digitsOf value).take 3 ++ ')' :: ' ' ::
      ((digitsOf value).drop 3).take 3 ++ '-' :: (digitsOf value).drop 6
  else value

/-- Embeds `ValueTransformer._format_ssn`: if the value contains exactly
9 digits, reformat as `DDD-DD-DDDD`; otherwise return it unchanged. -/
def formatSSN (value : Str) : Str :=
  if (digitsOf value).length = 9 then
    (digitsOf value).take 3 ++ '-' :: ((digitsOf value).drop 3).take 2 ++
      '-' :: (digitsOf value).drop 5
  else value

/-- Embeds the regex pre-check `re.match(r'^\d{4}-\d{2}-\d{2}$', value)`
together with the field split performed by `strptime(value, "%Y-%m-%d")`:
returns the year, month and day numbers when the shape matches. -/
def parseDatePattern : Str → Option (Nat × Nat × Nat)
  | [a, b, c, d, e, f, g, h, i, j] =>
    if a.isDigit ∧ b.isDigit ∧ c.isDigit ∧ d.isDigit ∧ e = '-' ∧
       f.isDigit ∧ g.isDigit ∧ h = '-' ∧ i.isDigit ∧ j.isDigit then
      some (charsToNat [a, b, c, d], charsToNat [f, g], charsToNat [i, j])
    else none
  | _ => none

/-- Gregorian leap-year rule, as used by `datetime`. -/
def isLeapYear (y : Nat) : Bool :=
  (y % 4 = 0 ∧ y % 100 ≠ 0) ∨ y % 400 = 0

/-- Days in a month, as validated by `datetime.strptime`. -/
def daysInMonth (y m : Nat) : Nat :=
  if m = 2 then (if isLeapYear y then 29 else 28)
  else if m = 4 ∨ m = 6 ∨ m = 9 ∨ m = 11 then 30
  else 31

/-- Validity check performed by `datetime.strptime` on the split fields
(`ValueError` on failure): year at least `MINYEAR = 1`, month 1-12, day
within the month. -/
def isValidDate (y m d : Nat) : Bool :=
  1 ≤ y ∧ 1 ≤ m ∧ m ≤ 12 ∧ 1 ≤ d ∧ d ≤ daysInMonth y m

/-- Embeds `ValueTransformer._format_date`: inputs matching
`YYYY-MM-DD` that parse as a valid date are reformatted by
`strftime("%m/%d/%Y")`; everything else (including regex matches that
raise `ValueError` in `strptime`) is returned unchanged. -/
def formatDate (value : Str) : Str :=
  match parseDatePattern value with
  | some (y, m, d) =>
    if isValidDate y m d then pad2 m ++ '/' :: pad2 d ++ '/' :: yearChars y
    else value
  | none => value

/-- Embeds `ValueTransformer.transform(value, purpose)`.  `purpose` is
`Optional[str]`; falsy `value` or `purpose` short-circuits to `value`. -/
def transform (value : Str) (purpose : Option Str) : Str :=
  if value = [] then value
  else
    match purpose with
    | none => value
    | some p =>
      if p = [] then value
      else
        let pl := lowerStr p
        if pl = str "phone" then formatPhone value
        else if pl = str "date" then formatDate value
        else if pl = str "ssn" then formatSSN value
        else value

/-! ## Idempotence of the value transformer (claim C6) -/

theorem filter_eq_self_of_digits (l : Str) (h : ∀ c ∈ l, isDigitChar c = true) :
    l.filter isDigitChar = l :=
  List.filter_eq_self.mpr h

theorem formatPhone_of_len10 (v : Str) (h : (digitsOf v).length = 10) :
    formatPhone v =
      '(' :: (digitsOf v).take 3 ++ ')' :: ' ' ::
        ((digitsOf v).drop 3).take 3 ++ '-' :: (digitsOf v).drop 6 := by
  unfold formatPhone
  rw [if_pos h]

theorem digitsOf_formatPhone (v : Str) : digitsOf (formatPhone v) = digitsOf v := by
  by_cases h : (digitsOf v).length = 10
  · rw [formatPhone_of_len10 v h]
    have hall : ∀ c ∈ digitsOf v, isDigitChar c = true := fun c hc => List.of_mem_filter hc
    have ht3 : ((digitsOf v).take 3).filter isDigitChar = (digitsOf v).take 3 :=
      filter_eq_self_of_digits _ fun c hc => hall c (List.take_subset _ _ hc)
    have ht3b : (((digitsOf v).drop 3).take 3).filter isDigitChar = ((digitsOf v).drop 3).take 3 :=
      filter_eq_self_of_digits _ fun c hc =>
        hall c (List.drop_subset _ _ (List.take_subset _ _ hc))
    have hd6 : ((digitsOf v).drop 6).filter isDigitChar = (digitsOf v).drop 6 :=
      filter_eq_self_of_digits _ fun c hc => hall c (List.drop_subset _ _ hc)
    have hnd1 : isDigitChar '(' = false := by decide
    have hnd2 : isDigitChar ')' = false := by decide
    have hnd3 : isDigitChar ' ' = false := by decide
    have hnd4 : isDigitChar '-' = false := by decide
    show List.filter isDigitChar _ = digitsOf v
    simp only [List.filter_append, List.filter_cons, hnd1, hnd2, hnd3, hnd4,
      Bool.false_eq_true, if_false]
    rw [ht3, ht3b, hd6]
    have hdd : List.drop 6 (digitsOf v) = List.drop 3 (List.drop 3 (digitsOf v)) := by
      rw [List.drop_drop]
    rw [hdd, List.append_assoc, List.take_append_drop, List.take_append_drop]
  · have hv : formatPhone v = v := by unfold formatPhone; rw [if_neg h]
    rw [hv]

theorem formatPhone_idem (v : Str) : formatPhone (formatPhone v) = formatPhone v := by
  by_cases h : (digitsOf v).length = 10
  · have hw : digitsOf (formatPhone v) = digitsOf v := digitsOf_formatPhone v
    have h10w : (digitsOf (formatPhone v)).length = 10 := by rw [hw]; exact h
    rw [formatPhone_of_len10 _ h10w, hw, formatPhone_of_len10 v h]
  · have hv : formatPhone v = v := by unfold formatPhone; rw [if_neg h]
    rw [hv, hv]

theorem formatSSN_of_len9 (v : Str) (h : (digitsOf v).length = 9) :
    formatSSN v =
      (digitsOf v).take 3 ++ '-' :: ((digitsOf v).drop 3).take 2 ++
        '-' :: (digitsOf v).drop 5 := by
  unfold formatSSN
  rw [if_pos h]

theorem digitsOf_formatSSN (v : Str) : digitsOf (formatSSN v) = digitsOf v := by
  by_cases h : (digitsOf v).length = 9
  · rw [formatSSN_of_len9 v h]
    have hall : ∀ c ∈ digitsOf v, isDigitChar c = true := fun c hc => List.of_mem_filter hc
    have ht3 : ((digitsOf v).take 3).filter isDigitChar = (digitsOf v).take 3 :=
      filter_eq_self_of_digits _ fun c hc => hall c (List.take_subset _ _ hc)
    have ht2b : (((digitsOf v).drop 3).take 2).filter isDigitChar = ((digitsOf v).drop 3).take 2 :=
      filter_eq_self_of_digits _ fun c hc =>
        hall c (List.drop_subset _ _ (List.take_subset _ _ hc))
    have hd5 : ((digitsOf v).drop 5).filter isDigitChar = (digitsOf v).drop 5 :=
      filter_eq_self_of_digits _ fun c hc => hall c (List.drop_subset _ _ hc)
    have hnd4 : isDigitChar '-' = false := by decide
    show List.filter isDigitChar _ = digitsOf v
    simp only [List.filter_append, List.filter_cons, hnd4, Bool.false_eq_true, if_false]
    rw [ht3, ht2b, hd5]
    have hdd : List.drop 5 (digitsOf v) = List.drop 2 (List.drop 3 (digitsOf v)) := by
      rw [List.drop_drop]
    rw [hdd, List.append_assoc, List.take_append_drop, List.take_append_drop]
  · have hv : formatSSN v = v := by unfold formatSSN; rw [if_neg h]
    rw [hv]

theorem formatSSN_idem (v : Str) : formatSSN (formatSSN v) = formatSSN v := by
  by_cases h : (digitsOf v).length = 9
  · have hw : digitsOf (formatSSN v) = digitsOf v := digitsOf_formatSSN v
    have h9w : (digitsOf (formatSSN v)).length = 9 := by rw [hw]; exact h
    rw [formatSSN_of_len9 _ h9w, hw, formatSSN_of_len9 v h]
  · have hv : formatSSN v = v := by unfold formatSSN; rw [if_neg h]
    rw [hv, hv]

theorem parseDatePattern_slash (a b : Char) (rest : Str) :
    parseDatePattern (a :: b :: '/' :: rest) = none := by
  rcases rest with _ | ⟨c1, rest⟩
  · rfl
  rcases rest with _ | ⟨c2, rest⟩
  · rfl
  rcases rest with _ | ⟨c3, rest⟩
  · rfl
  rcases rest with _ | ⟨c4, rest⟩
  · rfl
  rcases rest with _ | ⟨c5, rest⟩
  · rfl
  rcases rest with _ | ⟨c6, rest⟩
  · rfl
  rcases rest with _ | ⟨c7, rest⟩
  · rfl
  rcases rest with _ | ⟨c8, rest⟩
  · have heq : parseDatePattern [a, b, '/', c1, c2, c3, c4, c5, c6, c7] =
        if a.isDigit ∧ b.isDigit ∧ ('/').isDigit ∧ c1.isDigit ∧ c2 = '-' ∧
           c3.isDigit ∧ c4.isDigit ∧ c5 = '-' ∧ c6.isDigit ∧ c7.isDigit then
          some (charsToNat [a, b, '/', c1], charsToNat [c3, c4], charsToNat [c6, c7])
        else none := rfl
    rw [heq, if_neg]
    intro hcond
    exact absurd hcond.2.2.1 (by decide)
  · rfl

theorem formatDate_eq_none (v : Str) (h : parseDatePattern v = none) :
    formatDate v = v := by
  unfold formatDate
  rw [h]

theorem formatDate_eq_some (v : Str) (y m d : Nat)
    (h : parseDatePattern v = some (y, m, d)) :
    formatDate v =
      if isValidDate y m d then pad2 m ++ '/' :: pad2 d ++ '/' :: yearChars y
      else v := by
  unfold formatDate
  rw [h]

theorem formatDate_idem (v : Str) : formatDate (formatDate v) = formatDate v := by
  cases hp : parseDatePattern v with
  | none =>
    rw [formatDate_eq_none v hp]
    rw [formatDate_eq_none v hp]
  | some t =>
    obtain ⟨y, m, d⟩ := t
    by_cases hval : isValidDate y m d = true
    · have h1 : formatDate v = pad2 m ++ '/' :: pad2 d ++ '/' :: yearChars y := by
        rw [formatDate_eq_some v y m d hp, if_pos hval]
      have h2 : parseDatePattern (pad2 m ++ '/' :: pad2 d ++ '/' :: yearChars y) = none := by
        have hshape : pad2 m ++ '/' :: pad2 d ++ '/' :: yearChars y =
            Nat.digitChar (m / 10) :: Nat.digitChar (m % 10) :: '/' ::
              (pad2 d ++ '/' :: yearChars y) := rfl
        rw [hshape, parseDatePattern_slash]
      rw [h1, formatDate_eq_none _ h2]
    · have h1 : formatDate v = v := by
        rw [formatDate_eq_some v y m d hp, if_neg hval]
      rw [h1, h1]

/-- Claim C6: for every value `v` and purpose `p` in `{phone, date, ssn}`,
`ValueTransformer.transform` is idempotent:
`transform(transform(v, p), p) = transform(v, p)`. -/
theorem transform_idempotent (v p : Str)
    (hp : p = str "phone" ∨ p = str "date" ∨ p = str "ssn") :
    transform (transform v (some p)) (some p) = transform v (some p) := by
  have hstep : ∀ w : Str, transform w (some p) =
      if w = [] then w
      else if p = [] then w
      else if lowerStr p = str "phone" then formatPhone w
      else if lowerStr p = str "date" then formatDate w
      else if lowerStr p = str "ssn" then formatSSN w
      else w := fun w => rfl
  have hpne : ¬(p = []) := by
    rcases hp with h | h | h <;> subst h <;> decide
  by_cases hv : v = []
  · subst hv
    rfl
  rcases hp with h | h | h <;> subst h
  · have hl : lowerStr (str "phone") = str "phone" := by decide
    rw [hstep v, if_neg hv, if_neg hpne, hl, if_pos rfl]
    rw [hstep (formatPhone v)]
    by_cases hw : formatPhone v = []
    · rw [if_pos hw]
    · rw [if_neg hw, if_neg hpne, hl, if_pos rfl, formatPhone_idem]
  · have hl : lowerStr (str "date") = str "date" := by decide
    have hnp : ¬(str "date" = str "phone") := by decide
    rw [hstep v, if_neg hv, if_neg hpne, hl, if_neg hnp, if_pos rfl]
    rw [hstep (formatDate v)]
    by_cases hw : formatDate v = []
    · rw [if_pos hw]
    · rw [if_neg hw, if_neg hpne, hl, if_neg hnp, if_pos rfl, formatDate_idem]
  · have hl : lowerStr (str "ssn") = str "ssn" := by decide
    have hnp : ¬(str "ssn" = str "phone") := by decide
    have hnd : ¬(str "ssn" = str "date") := by decide
    rw [hstep v, if_neg hv, if_neg hpne, hl, if_neg hnp, if_neg hnd, if_pos rfl]
    rw [hstep (formatSSN v)]
    by_cases hw : formatSSN v = []
    · rw [if_pos hw]
    · rw [if_neg hw, if_neg hpne, hl, if_neg hnp, if_neg hnd, if_pos rfl, formatSSN_idem]

/-- Witness for C6: concrete instance at `v = "123-456-7890"`, `p = "phone"`. -/
theorem transform_idempotent_witness :
    (str "phone" = str "phone" ∨ str "phone" = str "date" ∨ str "phone" = str "ssn") ∧
      transform (transform (str "123-456-7890") (some (str "phone"))) (some (str "phone")) =
        transform (str "123-456-7890") (some (str "phone")) :=
  ⟨Or.inl rfl, transform_idempotent (str "123-456-7890") (str "phone") (Or.inl rfl)⟩

/-! ## Checkbox filling (`PdfFormWriter._fill_checkbox`, lines 616-630, claim C9) -/

/-- The truthy tokens recognised by `_fill_checkbox`:
`('yes', 'true', '1', 'checked', 'on', 'x')`. -/
def checkboxOnTokens : List Str :=
  [str "yes", str "true", str "1", str "checked", str "on", str "x"]

/-- Embeds the value computation of `_fill_checkbox`: the widget is set
to `/Yes` when `value.lower()` is one of the truthy tokens, `/Off`
otherwise. -/
def checkboxStateValue (value : Str) : Str :=
  if lowerStr value ∈ checkboxOnTokens then str "/Yes" else str "/Off"

/-- Claim C9: a checkbox is set to `/Yes` iff the lowercased value is one
of `yes`, `true`, `1`, `checked`, `on`, `x`; every other value — in
particular `" yes"` with surrounding whitespace, which is not stripped —
writes `/Off`. -/
theorem fill_checkbox_state :
    (∀ value : Str,
      (checkboxStateValue value = str "/Yes" ↔ lowerStr value ∈ checkboxOnTokens) ∧
      (checkboxStateValue value = str "/Off" ↔ lowerStr value ∉ checkboxOnTokens)) ∧
    checkboxStateValue (str " yes") = str "/Off" := by
  constructor
  · intro value
    unfold checkboxStateValue
    by_cases h : lowerStr value ∈ checkboxOnTokens
    · rw [if_pos h]
      exact ⟨⟨fun _ => h, fun _ => rfl⟩,
        ⟨fun hoff => absurd hoff (by decide), fun hn => absurd h hn⟩⟩
    · rw [if_neg h]
      exact ⟨⟨fun hyes => absurd hyes (by decide), fun hm => absurd hm h⟩,
        ⟨fun _ => h, fun _ => rfl⟩⟩
  · decide

/-! ## Field matcher (`PdfFormWriter._smart_match_field`, lines 449-505) -/

/-- Model of `re.sub(r'^field_\d+_', '', s)`: strip one machine-generated
`field_<digits>_` prefix if present. -/
def dropFieldNumPrefix (s : Str) : Str :=
  if (str "field_").isPrefixOf s then
    let r := s.drop (str "field_").length
    let ds := r.takeWhile isDigitChar
    let r2 := r.dropWhile isDigitChar
    if ds ≠ [] ∧ r2.head? = some '_' then r2.tail else s
  else s

/-- Fuel-driven scanner for `re.sub(r'\[\d+\]', '', s)`: removes every
`[<digits>]` group, scanning left to right.  `fuel = s.length` always
suffices since every step consumes at least one character. -/
def stripIndexesAux : Nat → Str → Str
  | 0, s => s
  | _ + 1, [] => []
  | fuel + 1, c :: rest =>
    if c = '[' then
      let ds := rest.takeWhile isDigitChar
      let r2 := rest.dropWhile isDigitChar
      if ds ≠ [] ∧ r2.head? = some ']' then stripIndexesAux fuel r2.tail
      else c :: stripIndexesAux fuel rest
    else c :: stripIndexesAux fuel rest

/-- Embeds the helper `strip_index` of `_smart_match_field`. -/
def stripIndexes (s : Str) : Str := stripIndexesAux s.length s

/-- Python `s.split('.')[-1]`: the final dot-separated segment. -/
def lastDotSegment (s : Str) : Str :=
  (s.reverse.takeWhile (fun c => c != '.')).reverse

/-- Embeds the helper `get_leaf`: last dotted segment, index brackets
stripped, lowercased. -/
def getLeaf (s : Str) : Str := lowerStr (stripIndexes (lastDotSegment s))

/-- Embeds the helper `clean`: `re.sub(r'[^a-z0-9]', '', s.lower())`. -/
def cleanStr (s : Str) : Str :=
  (lowerStr s).filter (fun c => decide (('a' ≤ c ∧ c ≤ 'z') ∨ ('0' ≤ c ∧ c ≤ '9')))

/-- External fuzzy-match oracles (`difflib.get_close_matches` with
cutoffs 0.7 and 0.8); modelled as an abstract environment since `difflib`
is outside the engine. -/
structure MatchEnv where
  closeFull : Str → List Str → Option Str
  closeBase : Str → List Str → Option Str

/-- Embeds `PdfFormWriter._smart_match_field(target_name,
available_fields)`: six strategies tried in order, first hit wins.
The case-insensitive step models the Python dict comprehension
`{f.lower(): f for f in available_fields}` (later entries win, hence the
`reverse`). -/
def smartMatchField (env : MatchEnv) (targetName : Str)
    (availableFields : List Str) : Option Str :=
  let targetCleanBase := lowerStr (dropFieldNumPrefix targetName)
  let fallbackContainment := availableFields.find? (fun f =>
    decide (targetCleanBase <:+: cleanStr f) || decide (cleanStr f <:+: targetCleanBase))
  if targetName ∈ availableFields then some targetName
  else
    match availableFields.reverse.find? (fun f => lowerStr f == lowerStr targetName) with
    | some f => some f
    | none =>
      match availableFields.find? (fun f =>
          cleanStr f == cleanStr targetName || cleanStr f == cleanStr targetCleanBase) with
      | some f => some f
      | none =>
        match availableFields.find? (fun f =>
            cleanStr (getLeaf f) == cleanStr (stripIndexes targetName)) with
        | some f => some f
        | none =>
          match env.closeFull targetName availableFields with
          | some m => some m
          | none =>
            match env.closeBase targetCleanBase (availableFields.map cleanStr) with
            | some mb =>
              match availableFields.find? (fun f => cleanStr f == mb) with
              | some f => some f
              | none => fallbackContainment
            | none => fallbackContainment

/-- Claim C7: looking up `"field_12_email_address"` against the canonical
list `["Email_Address"]` returns `"Email_Address"`, and it does so via
the cleaned-equality strategy on the prefix-stripped key: exact match and
case-insensitive match both fail, plain cleaned equality fails, and the
`field_12_`-stripped cleaned key equals the cleaned canonical name.
Holds for every fuzzy-match oracle, which is never consulted. -/
theorem smart_match_prefix_stripped (env : MatchEnv) :
    smartMatchField env (str "field_12_email_address") [str "Email_Address"] =
        some (str "Email_Address") ∧
      str "field_12_email_address" ∉ [str "Email_Address"] ∧
      [str "Email_Address"].reverse.find?
          (fun f => lowerStr f == lowerStr (str "field_12_email_address")) = none ∧
      cleanStr (str "Email_Address") ≠ cleanStr (str "field_12_email_address") ∧
      cleanStr (str "Email_Address") =
        cleanStr (lowerStr (dropFieldNumPrefix (str "field_12_email_address"))) :=
  ⟨rfl, by decide, by decide, by decide, by decide⟩

/-! ## Abbreviation dictionaries (`abbreviations.py`) -/

/-- `ADDRESS_ABBREVIATIONS` (lines 13-21), in source order. -/
def ADDRESS_ABBREVIATIONS : List (Str × Str) :=
  [(str "Street", str "St"), (str "Avenue", str "Ave"), (str "Road", str "Rd"),
   (str "Boulevard", str "Blvd"), (str "Drive", str "Dr"), (str "Lane", str "Ln"),
   (str "Court", str "Ct"), (str "Place", str "Pl"), (str "Circle", str "Cir"),
   (str "Highway", str "Hwy"), (str "Parkway", str "Pkwy"), (str "Terrace", str "Ter"),
   (str "Trail", str "Trl"), (str "Way", str "Way"), (str "North", str "N"),
   (str "South", str "S"), (str "East", str "E"), (str "West", str "W"),
   (str "Northeast", str "NE"), (str "Northwest", str "NW"), (str "Southeast", str "SE"),
   (str "Southwest", str "SW"), (str "Apartment", str "Apt"), (str "Suite", str "Ste"),
   (str "Building", str "Bldg"), (str "Floor", str "Fl"), (str "Room", str "Rm"),
   (str "Unit", str "Unit")]

/-- `TITLE_ABBREVIATIONS` (lines 23-29). -/
def TITLE_ABBREVIATIONS : List (Str × Str) :=
  [(str "Doctor", str "Dr"), (str "Professor", str "Prof"), (str "Mister", str "Mr"),
   (str "Misses", str "Mrs"), (str "Miss", str "Ms"), (str "Junior", str "Jr"),
   (str "Senior", str "Sr"), (str "Incorporated", str "Inc"), (str "Corporation", str "Corp"),
   (str "Company", str "Co"), (str "Limited", str "Ltd"), (str "Representative", str "Rep"),
   (str "Executive", str "Exec"), (str "Director", str "Dir"), (str "Manager", str "Mgr"),
   (str "Assistant", str "Asst")]

/-- `STATE_ABBREVIATIONS` (lines 31-45). -/
def STATE_ABBREVIATIONS : List (Str × Str) :=
  [(str "Alabama", str "AL"), (str "Alaska", str "AK"), (str "Arizona", str "AZ"),
   (str "Arkansas", str "AR"), (str "California", str "CA"), (str "Colorado", str "CO"),
   (str "Connecticut", str "CT"), (str "Delaware", str "DE"), (str "Florida", str "FL"),
   (str "Georgia", str "GA"), (str "Hawaii", str "HI"), (str "Idaho", str "ID"),
   (str "Illinois", str "IL"), (str "Indiana", str "IN"), (str "Iowa", str "IA"),
   (str "Kansas", str "KS"), (str "Kentucky", str "KY"), (str "Louisiana", str "LA"),
   (str "Maine", str "ME"), (str "Maryland", str "MD"), (str "Massachusetts", str "MA"),
   (str "Michigan", str "MI"), (str "Minnesota", str "MN"), (str "Mississippi", str "MS"),
   (str "Missouri", str "MO"), (str "Montana", str "MT"), (str "Nebraska", str "NE"),
   (str "Nevada", str "NV"), (str "New Hampshire", str "NH"), (str "New Jersey", str "NJ"),
   (str "New Mexico", str "NM"), (str "New York", str "NY"), (str "North Carolina", str "NC"),
   (str "North Dakota", str "ND"), (str "Ohio", str "OH"), (str "Oklahoma", str "OK"),
   (str "Oregon", str "OR"), (str "Pennsylvania", str "PA"), (str "Rhode Island", str "RI"),
   (str "South Carolina", str "SC"), (str "South Dakota", str "SD"), (str "Tennessee", str "TN"),
   (str "Texas", str "TX"), (str "Utah", str "UT"), (str "Vermont", str "VT"),
   (str "Virginia", str "VA"), (str "Washington", str "WA"), (str "West Virginia", str "WV"),
   (str "Wisconsin", str "WI"), (str "Wyoming", str "WY"),
   (str "District of Columbia", str "DC")]

/-- `MONTH_ABBREVIATIONS` (lines 47-51). -/
def MONTH_ABBREVIATIONS : List (Str × Str) :=
  [(str "January", str "Jan"), (str "February", str "Feb"), (str "March", str "Mar"),
   (str "April", str "Apr"), (str "May", str "May"), (str "June", str "Jun"),
   (str "July", str "Jul"), (str "August", str "Aug"), (str "September", str "Sep"),
   (str "October", str "Oct"), (str "November", str "Nov"), (str "December", str "Dec")]

/-- `COMMON_ABBREVIATIONS` (lines 53-61). -/
def COMMON_ABBREVIATIONS : List (Str × Str) :=
  [(str "Number", str "No"), (str "Numbers", str "Nos"), (str "Telephone", str "Tel"),
   (str "Extension", str "Ext"), (str "Department", str "Dept"), (str "Information", str "Info"),
   (str "Reference", str "Ref"), (str "International", str "Intl"),
   (str "Association", str "Assn"), (str "University", str "Univ"),
   (str "Institute", str "Inst"), (str "Foundation", str "Fdn"),
   (str "Organization", str "Org"), (str "Government", str "Govt"),
   (str "Approximately", str "Approx"), (str "Additional", str "Addl"),
   (str "Maximum", str "Max"), (str "Minimum", str "Min"), (str "Average", str "Avg"),
   (str "Estimated", str "Est"), (str "Continued", str "Cont"),
   (str "Certificate", str "Cert"), (str "Professional", str "Prof")]

/-- `MEDICAL_ABBREVIATIONS` (lines 67-74). -/
def MEDICAL_ABBREVIATIONS : List (Str × Str) :=
  [(str "Patient", str "Pt"), (str "Diagnosis", str "Dx"), (str "Prescription", str "Rx"),
   (str "Treatment", str "Tx"), (str "History", str "Hx"), (str "Symptoms", str "Sx"),
   (str "Complaint", str "CC"), (str "Emergency Room", str "ER"),
   (str "Intensive Care Unit", str "ICU"), (str "Blood Pressure", str "BP"),
   (str "Heart Rate", str "HR"), (str "Frequency", str "Freq"), (str "Tablet", str "Tab"),
   (str "Capsule", str "Cap"), (str "Solution", str "Sol"), (str "Appointment", str "Appt"),
   (str "Referral", str "Ref"), (str "Examination", str "Exam"), (str "Physician", str "Phys"),
   (str "Condition", str "Cond")]

/-- `LEGAL_ABBREVIATIONS` (lines 76-82). -/
def LEGAL_ABBREVIATIONS : List (Str × Str) :=
  [(str "Plaintiff", str "Pl"), (str "Defendant", str "Def"), (str "Attorney", str "Atty"),
   (str "versus", str "v."), (str "Agreement", str "Agmt"), (str "Contract", str "K"),
   (str "Regulation", str "Reg"), (str "Statute", str "Stat"), (str "Exhibit", str "Ex"),
   (str "Judgement", str "Jmt"), (str "Petition", str "Pet"), (str "Respondent", str "Resp"),
   (str "Appellant", str "Appt"), (str "Circuit", str "Cir"), (str "District", str "Dist"),
   (str "Evidence", str "Evid"), (str "Testimony", str "Test"), (str "Affidavit", str "Aff")]

/-- `BUSINESS_ABBREVIATIONS` (lines 84-89). -/
def BUSINESS_ABBREVIATIONS : List (Str × Str) :=
  [(str "Account", str "Acct"), (str "Amount", str "Amt"), (str "Balance", str "Bal"),
   (str "Invoice", str "Inv"), (str "Payment", str "Pmt"), (str "Received", str "Recd"),
   (str "Year to Date", str "YTD"), (str "Return on Investment", str "ROI"),
   (str "Purchase Order", str "PO"), (str "Quarter", str "Qtr"), (str "Fiscal Year", str "FY"),
   (str "Meeting", str "Mtg"), (str "Manager", str "Mgr"), (str "Assistant", str "Asst")]

/-- Python dict insertion: an existing key is updated in place (keeping
its position), a new key is appended. -/
def pyDictInsert (d : List (Str × Str)) (kv : Str × Str) : List (Str × Str) :=
  if d.any (fun p => p.1 == kv.1) then
    d.map (fun p => if p.1 == kv.1 then (p.1, kv.2) else p)
  else d ++ [kv]

/-- Python `dict.update` / `{**a, **b}` merge. -/
def pyDictUpdate (d u : List (Str × Str)) : List (Str × Str) :=
  u.foldl pyDictInsert d

/-- Embeds `get_abbreviations(domain)` (lines 92-117): the five base
tables merged, then the domain table merged on top for the recognised
domains. -/
def getAbbreviations (domain : Str) : List (Str × Str) :=
  let base := [ADDRESS_ABBREVIATIONS, TITLE_ABBREVIATIONS, STATE_ABBREVIATIONS,
    MONTH_ABBREVIATIONS, COMMON_ABBREVIATIONS].foldl pyDictUpdate []
  if domain = str "medical" then pyDictUpdate base MEDICAL_ABBREVIATIONS
  else if domain = str "legal" then pyDictUpdate base LEGAL_ABBREVIATIONS
  else if domain = str "business" then pyDictUpdate base BUSINESS_ABBREVIATIONS
  else base

/-! ## Whole-word substitution (`TextFitter._apply_abbreviations`, lines 224-235) -/

/-- Case-insensitive literal match of `key` against the front of `s`
(the regex is `re.escape(key)` under `re.IGNORECASE`). -/
def ciIsPrefix (key s : Str) : Bool :=
  lowerStr (s.take key.length) == lowerStr key

/-- Python `\b`: a word boundary lies between two positions iff exactly
one of the adjacent characters is a word character. -/
def isBoundary (a b : Option Char) : Bool := isWordOpt a != isWordOpt b

/-- Match of the pattern `\b<key>\b` (case-insensitive) at the start of
`s`, where `prev` is the character just before the scan position. -/
def wordMatchAt (key : Str) (prev : Option Char) (s : Str) : Bool :=
  ciIsPrefix key s && isBoundary prev s.head? &&
    isBoundary (s.take key.length).getLast? (s.drop key.length).head?

/-- Fuel-driven scanner for `re.sub(r'\b' + re.escape(key) + r'\b',
repl, s, flags=re.IGNORECASE)`: leftmost non-overlapping matches are
replaced and scanning resumes after the matched text.  `fuel = s.length`
always suffices since every step consumes at least one character. -/
def wordSubAux (key repl : Str) : Nat → Option Char → Str → Str
  | _, _, [] => []
  | 0, _, s => s
  | fuel + 1, prev, c :: rest =>
    if wordMatchAt key prev (c :: rest) then
      repl ++ wordSubAux key repl fuel ((c :: rest).take key.length).getLast?
        ((c :: rest).drop key.length)
    else c :: wordSubAux key repl fuel (some c) rest

/-- One dictionary substitution pass of `_apply_abbreviations`.  (The
dictionaries never contain an empty key; the guard keeps the scanner
total.) -/
def wordSub (key repl s : Str) : Str :=
  if key = [] then s else wordSubAux key repl s.length none s

/-- A case-insensitive prefix match means the key is no longer than the
scanned suffix. -/
theorem ciIsPrefix_length {key s : Str} (h : ciIsPrefix key s = true) :
    key.length ≤ s.length := by
  unfold ciIsPrefix at h
  have heq : lowerStr (s.take key.length) = lowerStr key := by
    exact eq_of_beq h
  have hlen := congrArg List.length heq
  simp only [lowerStr, List.length_map, List.length_take] at hlen
  omega

/-- Core length bound: substituting a replacement no longer than the key
never lengthens the string. -/
theorem wordSubAux_length_le (key repl : Str) (hr : repl.length ≤ key.length) :
    ∀ (fuel : Nat) (prev : Option Char) (s : Str),
      (wordSubAux key repl fuel prev s).length ≤ s.length := by
  intro fuel
  induction fuel with
  | zero =>
    intro prev s
    cases s with
    | nil => simp [wordSubAux]
    | cons c rest => simp [wordSubAux]
  | succ f ih =>
    intro prev s
    cases s with
    | nil => simp [wordSubAux]
    | cons c rest =>
      rw [wordSubAux]
      by_cases h : wordMatchAt key prev (c :: rest) = true
      · rw [if_pos h]
        have hpref : ciIsPrefix key (c :: rest) = true := by
          unfold wordMatchAt at h
          simp only [Bool.and_eq_true] at h
          exact h.1.1
        have hk : key.length ≤ (c :: rest).length := ciIsPrefix_length hpref
        have hrec := ih (((c :: rest).take key.length).getLast?) ((c :: rest).drop key.length)
        have hdrop : ((c :: rest).drop key.length).length = (c :: rest).length - key.length :=
          List.length_drop _ _
        rw [List.length_append]
        omega
      · rw [if_neg h]
        have hrec := ih (some c) rest
        simp only [List.length_cons]
        omega

/-- Length bound for a single substitution pass. -/
theorem wordSub_length_le (key repl s : Str) (hr : repl.length ≤ key.length) :
    (wordSub key repl s).length ≤ s.length := by
  unfold wordSub
  by_cases h : key = []
  · rw [if_pos h]
  · rw [if_neg h]
    exact wordSubAux_length_le key repl hr s.length none s

/-- Dictionary lookup `self.abbreviations[key]`. -/
def abbrevLookup (d : List (Str × Str)) (k : Str) : Option Str :=
  (d.find? (fun p => p.1 == k)).map (fun p => p.2)

/-- Embeds `TextFitter._apply_abbreviations(text)`: keys sorted longest
first (Python `sorted(keys, key=len, reverse=True)` is a stable sort, so
the stable `insertionSort` on length-descending order computes the same
list), each applied as a whole-word, case-insensitive substitution. -/
def applyAbbreviations (domain text : Str) : Str :=
  let abbrevs := getAbbreviations domain
  let sortedKeys :=
    (abbrevs.map Prod.fst).insertionSort (fun a b => b.length ≤ a.length)
  sortedKeys.foldl (fun res key => wordSub key ((abbrevLookup abbrevs key).getD []) res) text

/-- Every replacement in a dictionary table is no longer than its key. -/
def absShorter (p : Str × Str) : Prop := p.2.length ≤ p.1.length

theorem pyDictInsert_bound {d : List (Str × Str)} {kv : Str × Str}
    (hd : ∀ p ∈ d, absShorter p) (hkv : absShorter kv) :
    ∀ p ∈ pyDictInsert d kv, absShorter p := by
  intro p hp
  unfold pyDictInsert at hp
  split at hp
  · rcases List.mem_map.mp hp with ⟨q, hq, rfl⟩
    by_cases h : (q.1 == kv.1) = true
    · rw [if_pos h]
      have hq1 : q.1 = kv.1 := eq_of_beq h
      unfold absShorter at hkv ⊢
      rw [hq1]
      exact hkv
    · rw [if_neg h]
      exact hd q hq
  · rcases List.mem_append.mp hp with h | h
    · exact hd p h
    · rcases List.mem_singleton.mp h with rfl
      exact hkv

theorem pyDictUpdate_bound {u d : List (Str × Str)}
    (hd : ∀ p ∈ d, absShorter p) (hu : ∀ p ∈ u, absShorter p) :
    ∀ p ∈ pyDictUpdate d u, absShorter p := by
  induction u generalizing d with
  | nil => exact hd
  | cons kv u ih =>
    have hstep : ∀ p ∈ pyDictInsert d kv, absShorter p :=
      pyDictInsert_bound hd (hu kv (List.mem_cons_self kv u))
    exact ih hstep (fun p hp => hu p (List.mem_cons_of_mem kv hp))

theorem getAbbreviations_bound (domain : Str) :
    ∀ p ∈ getAbbreviations domain, absShorter p := by
  have hA : ∀ p ∈ ADDRESS_ABBREVIATIONS, absShorter p := by
    simp only [absShorter]
    decide
  have hT : ∀ p ∈ TITLE_ABBREVIATIONS, absShorter p := by
    simp only [absShorter]
    decide
  have hS : ∀ p ∈ STATE_ABBREVIATIONS, absShorter p := by
    simp only [absShorter]
    decide
  have hM : ∀ p ∈ MONTH_ABBREVIATIONS, absShorter p := by
    simp only [absShorter]
    decide
  have hC : ∀ p ∈ COMMON_ABBREVIATIONS, absShorter p := by
    simp only [absShorter]
    decide
  have hMed : ∀ p ∈ MEDICAL_ABBREVIATIONS, absShorter p := by
    simp only [absShorter]
    decide
  have hLeg : ∀ p ∈ LEGAL_ABBREVIATIONS, absShorter p := by
    simp only [absShorter]
    decide
  have hBus : ∀ p ∈ BUSINESS_ABBREVIATIONS, absShorter p := by
    simp only [absShorter]
    decide
  have hnil : ∀ p ∈ ([] : List (Str × Str)), absShorter p := by
    intro p hp
    exact absurd hp (List.not_mem_nil p)
  have hbase : ∀ p ∈ [ADDRESS_ABBREVIATIONS, TITLE_ABBREVIATIONS, STATE_ABBREVIATIONS,
      MONTH_ABBREVIATIONS, COMMON_ABBREVIATIONS].foldl pyDictUpdate [], absShorter p := by
    simp only [List.foldl]
    exact pyDictUpdate_bound
      (pyDictUpdate_bound (pyDictUpdate_bound (pyDictUpdate_bound
        (pyDictUpdate_bound hnil hA) hT) hS) hM) hC
  unfold getAbbreviations
  split
  · exact pyDictUpdate_bound hbase hMed
  split
  · exact pyDictUpdate_bound hbase hLeg
  split
  · exact pyDictUpdate_bound hbase hBus
  exact hbase

theorem abbrevLookup_bound {abbrevs : List (Str × Str)}
    (h : ∀ p ∈ abbrevs, absShorter p) {k v : Str}
    (hf : abbrevLookup abbrevs k = some v) : v.length ≤ k.length := by
  unfold abbrevLookup at hf
  cases hfind : abbrevs.find? (fun p => p.1 == k) with
  | none => rw [hfind] at hf; exact absurd hf (by simp)
  | some q =>
    rw [hfind] at hf
    have hq : q ∈ abbrevs := List.mem_of_find?_eq_some hfind
    have hpred := List.find?_some hfind
    have hqk : q.1 = k := eq_of_beq (by simpa using hpred)
    have hv : q.2 = v := by
      simpa using hf
    have := h q hq
    unfold absShorter at this
    rw [hqk, hv] at this
    exact this

theorem foldl_wordSub_length_le (abbrevs : List (Str × Str))
    (h : ∀ p ∈ abbrevs, absShorter p) (keys : List Str) :
    ∀ res : Str,
      (keys.foldl (fun res key =>
        wordSub key ((abbrevLookup abbrevs key).getD []) res) res).length ≤ res.length := by
  induction keys with
  | nil => intro res; simp
  | cons k ks ih =>
    intro res
    rw [List.foldl_cons]
    have hstep : (wordSub k ((abbrevLookup abbrevs k).getD []) res).length ≤ res.length := by
      cases hlook : abbrevLookup abbrevs k with
      | none =>
        apply wordSub_length_le
        simp
      | some v =>
        apply wordSub_length_le
        simpa using abbrevLookup_bound h hlook
    exact le_trans (ih _) hstep

/-- Claim C10: for every input string and every abbreviation domain, one
abbreviation substitution pass never lengthens the string: every
substitution replaces a whole-word match with a replacement that is no
longer than the matched word. -/
theorem apply_abbreviations_length_le (domain text : Str) :
    (applyAbbreviations domain text).length ≤ text.length := by
  unfold applyAbbreviations
  exact foldl_wordSub_length_le (getAbbreviations domain)
    (getAbbreviations_bound domain) _ text

/-! ## Text fitter (`text_fitter.py`) -/

/-- Python `text.split()`: split on whitespace runs, dropping empty
parts. -/
def splitWs (s : Str) : List Str :=
  (s.splitOnP Char.isWhitespace).filter (fun w => !w.isEmpty)

/-- The stop-word set of `_remove_stop_words` (line 239). -/
def stopWords : List Str :=
  [str "the", str "a", str "an", str "and", str "or", str "of", str "for",
   str "with", str "in", str "on", str "at", str "by"]

/-- Embeds `TextFitter._remove_stop_words` (lines 237-240). -/
def removeStopWords (s : Str) : Str :=
  List.intercalate (str " ")
    ((splitWs s).filter (fun w => decide (lowerStr w ∉ stopWords)))

/-- Fuel-driven scanner for `re.sub(r'-\d{4}\b', '', s)`: a hyphen
followed by exactly four digits and a trailing word boundary is removed. -/
def removeZipExtAux : Nat → Str → Str
  | _, [] => []
  | 0, s => s
  | fuel + 1, c :: rest =>
    if c = '-' ∧ (rest.take 4).length = 4 ∧ (rest.take 4).all isDigitChar ∧
        isWordOpt (rest.drop 4).head? = false then
      removeZipExtAux fuel (rest.drop 4)
    else c :: removeZipExtAux fuel rest

/-- Model of `re.sub(r'-\d{4}\b', '', s)`. -/
def removeZipExt (s : Str) : Str := removeZipExtAux s.length s

/-- Alternation tail of `r',\s*(USA|US|United States)\b'` after the
comma: skip whitespace, then try the alternatives in regex priority
order, each requiring a trailing word boundary. -/
def matchCountryTail (rest : Str) : Option Str :=
  let r := rest.dropWhile Char.isWhitespace
  if (str "USA").isPrefixOf r ∧ isWordOpt (r.drop 3).head? = false then some (r.drop 3)
  else if (str "US").isPrefixOf r ∧ isWordOpt (r.drop 2).head? = false then some (r.drop 2)
  else if (str "United States").isPrefixOf r ∧ isWordOpt (r.drop 13).head? = false then
    some (r.drop 13)
  else none

/-- Fuel-driven scanner for `re.sub(r',\s*(USA|US|United States)\b', '', s)`. -/
def removeCountryAux : Nat → Str → Str
  | _, [] => []
  | 0, s => s
  | fuel + 1, c :: rest =>
    if c = ',' then
      match matchCountryTail rest with
      | some rest2 => removeCountryAux fuel rest2
      | none => c :: removeCountryAux fuel rest
    else c :: removeCountryAux fuel rest

/-- Model of `re.sub(r',\s*(USA|US|United States)\b', '', s)`. -/
def removeCountry (s : Str) : Str := removeCountryAux s.length s

/-- Embeds `TextFitter._compress_address_structured` (lines 242-256):
staged reduction, stopping as soon as the budget is met. -/
def compressAddressStructured (domain text : Str) (maxChars : Nat) : Str :=
  if (applyAbbreviations domain text).length ≤ maxChars then
    applyAbbreviations domain text
  else if (removeZipExt (applyAbbreviations domain text)).length ≤ maxChars then
    removeZipExt (applyAbbreviations domain text)
  else removeCountry (removeZipExt (applyAbbreviations domain text))

/-- External collaborators of the text fitter: the
`SequenceMatcher.ratio` similarity oracle and the raw `"value"` string
returned by the local LLM service (`none` models an unavailable or
failing service, whose exceptions `compress` catches). -/
structure FitEnv where
  seqRatio : Str → Str → Rat
  llmRaw : Option Str

/-- Embeds `TextFitter._calculate_score` (lines 258-273); Python float
constants are modelled as exact rationals. -/
def calculateScore (seqRatio : Str → Str → Rat) (original fitted : Str) : Rat :=
  if fitted = [] then 0
  else if (fitted.length : Rat) / (original.length : Rat) < 1 / 5 then 2 / 5
  else min 1 (seqRatio (lowerStr original) (lowerStr fitted) + 3 / 10)

/-- Embeds `LLMTextCompressor.compress` (lines 68-118): the raw service
output is stripped and accepted only if non-empty, within budget and
with similarity above the 0.1 sanity floor. -/
def llmCompress (env : FitEnv) (text : Str) (maxChars : Nat) : Option Str :=
  match env.llmRaw with
  | none => none
  | some raw =>
    if pyStrip raw ≠ [] ∧ (pyStrip raw).length ≤ maxChars then
      if env.seqRatio text (pyStrip raw) > 1 / 10 then some (pyStrip raw) else none
    else none

/-- Embeds `FitResult` (`text_fitter.py`, lines 37-51). -/
structure FitResult where
  original : Str
  fitted : Str
  strategy_used : Str
  score : Rat := 0
  font_size : Option Rat := none
  truncated : Bool := false
  overflow : Bool := false
  changes_made : List Str := []
deriving Repr, DecidableEq

/-- Strategy A of `TextFitter.fit` (lines 164-171): abbreviations. -/
def candAbbrev (env : FitEnv) (domain original : Str) (maxChars : Nat) : List FitResult :=
  if (applyAbbreviations domain original).length ≤ maxChars then
    [{ original := original, fitted := applyAbbreviations domain original,
       strategy_used := str "abbreviations",
       score := calculateScore env.seqRatio original (applyAbbreviations domain original),
       changes_made := [str "Applied abbreviations"] }]
  else []

/-- Strategy B (lines 173-180): stop-word removal on top of the
abbreviation output, with a 0.95 score penalty. -/
def candStop (env : FitEnv) (domain original : Str) (maxChars : Nat) : List FitResult :=
  if (removeStopWords (applyAbbreviations domain original)).length ≤ maxChars then
    [{ original := original, fitted := removeStopWords (applyAbbreviations domain original),
       strategy_used := str "stop_words",
       score := calculateScore env.seqRatio original
         (removeStopWords (applyAbbreviations domain original)) * (19 / 20),
       changes_made := [str "Removed stop words"] }]
  else []

/-- Strategy C (lines 182-190): structured address compression, only
when the field context declares type or purpose `address`. -/
def candAddr (domain original : Str) (maxChars : Nat)
    (ctxType ctxPurpose : Option Str) : List FitResult :=
  if ctxType = some (str "address") ∨ ctxPurpose = some (str "address") then
    if (compressAddressStructured domain original maxChars).length ≤ maxChars then
      [{ original := original, fitted := compressAddressStructured domain original maxChars,
         strategy_used := str "structured_address", score := 49 / 50,
         changes_made := [str "Structured address compression"] }]
    else []
  else []

/-- Strategies A-C followed by the guarded LLM strategy D
(lines 192-201): the LLM is consulted only when no heuristic candidate
scored at least 0.8. -/
def fitCandidates (env : FitEnv) (domain original : Str) (maxChars : Nat)
    (ctxType ctxPurpose : Option Str) : List FitResult :=
  if candAbbrev env domain original maxChars ++ candStop env domain original maxChars ++
      candAddr domain original maxChars ctxType ctxPurpose = [] ∨
     (candAbbrev env domain original maxChars ++ candStop env domain original maxChars ++
      candAddr domain original maxChars ctxType ctxPurpose).all
        (fun c => decide (c.score < 4 / 5)) then
    match llmCompress env original maxChars with
    | some llmText =>
      candAbbrev env domain original maxChars ++ candStop env domain original maxChars ++
        candAddr domain original maxChars ctxType ctxPurpose ++
        [{ original := original, fitted := llmText, strategy_used := str "llm_compression",
           score := calculateScore env.seqRatio original llmText,
           changes_made := [str "AI semantic compression"] }]
    | none =>
      candAbbrev env domain original maxChars ++ candStop env domain original maxChars ++
        candAddr domain original maxChars ctxType ctxPurpose
  else
    candAbbrev env domain original maxChars ++ candStop env domain original maxChars ++
      candAddr domain original maxChars ctxType ctxPurpose

/-- Candidate selection (lines 203-207): Python's stable
`sort(reverse=True)` on the score followed by `candidates[0]` returns
the first candidate of maximal score. -/
def selectBest (c : FitResult) (cs : List FitResult) : FitResult :=
  cs.foldl (fun best x => if best.score < x.score then x else best) c

/-- Embeds `TextFitter.fit` (lines 141-222). -/
def fit (env : FitEnv) (domain text : Str) (maxChars : Nat)
    (ctxType ctxPurpose : Option Str) (allowTruncation : Bool) : FitResult :=
  if text = [] then { original := text, fitted := text, strategy_used := str "empty" }
  else if (pyStrip text).length ≤ maxChars then
    { original := pyStrip text, fitted := pyStrip text,
      strategy_used := str "direct_fit", score := 1 }
  else
    match fitCandidates env domain (pyStrip text) maxChars ctxType ctxPurpose with
    | c :: cs => selectBest c cs
    | [] =>
      if allowTruncation then
        { original := pyStrip text,
          fitted := pyStrip (pySliceTo (pyStrip text) ((maxChars : Int) - 3)) ++ str "...",
          strategy_used := str "truncation", score := 1 / 10, truncated := true,
          changes_made := [str "Truncated"] }
      else
        { original := pyStrip text, fitted := (pyStrip text).take maxChars,
          strategy_used := str "hard_cut", score := 0, truncated := true, overflow := true }

/-! ## Fit invariants (claims C2, C4, C5) -/

theorem pyStrip_length_le (s : Str) : (pyStrip s).length ≤ s.length := by
  unfold pyStrip
  have h1 : (s.dropWhile Char.isWhitespace).length ≤ s.length :=
    (List.dropWhile_sublist _).length_le
  have h2 : ((s.dropWhile Char.isWhitespace).reverse.dropWhile Char.isWhitespace).length ≤
      (s.dropWhile Char.isWhitespace).reverse.length :=
    (List.dropWhile_sublist _).length_le
  simp only [List.length_reverse] at h2 ⊢
  omega

theorem selectBest_mem (c : FitResult) (cs : List FitResult) : selectBest c cs ∈ c :: cs := by
  induction cs generalizing c with
  | nil => exact List.mem_singleton.mpr rfl
  | cons x xs ih =>
    unfold selectBest
    rw [List.foldl_cons]
    have h := ih (if c.score < x.score then x else c)
    unfold selectBest at h
    rcases List.mem_cons.mp h with h1 | h1
    · rw [h1]
      by_cases hs : c.score < x.score
      · rw [if_pos hs]
        exact List.mem_cons_of_mem c (List.mem_cons_self x xs)
      · rw [if_neg hs]
        exact List.mem_cons_self c (x :: xs)
    · exact List.mem_cons_of_mem c (List.mem_cons_of_mem x h1)

theorem llmCompress_le (env : FitEnv) (text : Str) (maxChars : Nat) (t : Str)
    (h : llmCompress env text maxChars = some t) : t.length ≤ maxChars := by
  unfold llmCompress at h
  cases hraw : env.llmRaw with
  | none =>
    rw [hraw] at h
    exact absurd h (by simp)
  | some raw =>
    rw [hraw] at h
    have h2 : (if pyStrip raw ≠ [] ∧ (pyStrip raw).length ≤ maxChars then
        if env.seqRatio text (pyStrip raw) > 1 / 10 then some (pyStrip raw) else none
      else none) = some t := h
    split_ifs at h2 with hcond hratio
    · have ht : pyStrip raw = t := Option.some.inj h2
      rw [← ht]
      exact hcond.2

theorem candAbbrev_fitted_le (env : FitEnv) (domain original : Str) (maxChars : Nat) :
    ∀ r ∈ candAbbrev env domain original maxChars, r.fitted.length ≤ maxChars := by
  intro r hr
  unfold candAbbrev at hr
  by_cases h : (applyAbbreviations domain original).length ≤ maxChars
  · rw [if_pos h] at hr
    rcases List.mem_singleton.mp hr with rfl
    exact h
  · rw [if_neg h] at hr
    exact absurd hr (List.not_mem_nil r)

theorem candStop_fitted_le (env : FitEnv) (domain original : Str) (maxChars : Nat) :
    ∀ r ∈ candStop env domain original maxChars, r.fitted.length ≤ maxChars := by
  intro r hr
  unfold candStop at hr
  by_cases h : (removeStopWords (applyAbbreviations domain original)).length ≤ maxChars
  · rw [if_pos h] at hr
    rcases List.mem_singleton.mp hr with rfl
    exact h
  · rw [if_neg h] at hr
    exact absurd hr (List.not_mem_nil r)

theorem candAddr_fitted_le (domain original : Str) (maxChars : Nat)
    (ctxType ctxPurpose : Option Str) :
    ∀ r ∈ candAddr domain original maxChars ctxType ctxPurpose,
      r.fitted.length ≤ maxChars := by
  intro r hr
  unfold candAddr at hr
  by_cases hctx : ctxType = some (str "address") ∨ ctxPurpose = some (str "address")
  · rw [if_pos hctx] at hr
    by_cases h : (compressAddressStructured domain original maxChars).length ≤ maxChars
    · rw [if_pos h] at hr
      rcases List.mem_singleton.mp hr with rfl
      exact h
    · rw [if_neg h] at hr
      exact absurd hr (List.not_mem_nil r)
  · rw [if_neg hctx] at hr
    exact absurd hr (List.not_mem_nil r)

theorem fitCandidates_fitted_le (env : FitEnv) (domain original : Str) (maxChars : Nat)
    (ctxType ctxPurpose : Option Str) :
    ∀ r ∈ fitCandidates env domain original maxChars ctxType ctxPurpose,
      r.fitted.length ≤ maxChars := by
  have hheur : ∀ s ∈ candAbbrev env domain original maxChars ++
      candStop env domain original maxChars ++
      candAddr domain original maxChars ctxType ctxPurpose, s.fitted.length ≤ maxChars := by
    intro s hs
    rcases List.mem_append.mp hs with hs1 | hs2
    · rcases List.mem_append.mp hs1 with h | h
      · exact candAbbrev_fitted_le env domain original maxChars s h
      · exact candStop_fitted_le env domain original maxChars s h
    · exact candAddr_fitted_le domain original maxChars ctxType ctxPurpose s hs2
  intro r hr
  unfold fitCandidates at hr
  split at hr
  · cases hc : llmCompress env original maxChars with
    | some t =>
      rw [hc] at hr
      rcases List.mem_append.mp hr with h | h
      · rcases List.mem_append.mp h with h2 | h2
        · rcases List.mem_append.mp h2 with h3 | h3
          · exact hheur r (List.mem_append.mpr (Or.inl (List.mem_append.mpr (Or.inl h3))))
          · exact hheur r (List.mem_append.mpr (Or.inl (List.mem_append.mpr (Or.inr h3))))
        · exact hheur r (List.mem_append.mpr (Or.inr h2))
      · rcases List.mem_singleton.mp h with rfl
        exact llmCompress_le env original maxChars t hc
    | none =>
      rw [hc] at hr
      exact hheur r hr
  · exact hheur r hr

theorem fit_eq_empty (env : FitEnv) (domain : Str) (maxChars : Nat)
    (ctxType ctxPurpose : Option Str) (allowTruncation : Bool) :
    fit env domain [] maxChars ctxType ctxPurpose allowTruncation =
      { original := [], fitted := [], strategy_used := str "empty" } := rfl

theorem fit_eq_direct (env : FitEnv) (domain text : Str) (maxChars : Nat)
    (ctxType ctxPurpose : Option Str) (allowTruncation : Bool)
    (h1 : text ≠ []) (h2 : (pyStrip text).length ≤ maxChars) :
    fit env domain text maxChars ctxType ctxPurpose allowTruncation =
      { original := pyStrip text, fitted := pyStrip text,
        strategy_used := str "direct_fit", score := 1 } := by
  unfold fit
  rw [if_neg h1, if_pos h2]

theorem fit_eq_select (env : FitEnv) (domain text : Str) (maxChars : Nat)
    (ctxType ctxPurpose : Option Str) (allowTruncation : Bool) (c : FitResult)
    (cs : List FitResult) (h1 : text ≠ []) (h2 : ¬(pyStrip text).length ≤ maxChars)
    (hc : fitCandidates env domain (pyStrip text) maxChars ctxType ctxPurpose = c :: cs) :
    fit env domain text maxChars ctxType ctxPurpose allowTruncation = selectBest c cs := by
  unfold fit
  rw [if_neg h1, if_neg h2, hc]

theorem fit_eq_trunc (env : FitEnv) (domain text : Str) (maxChars : Nat)
    (ctxType ctxPurpose : Option Str) (h1 : text ≠ [])
    (h2 : ¬(pyStrip text).length ≤ maxChars)
    (hc : fitCandidates env domain (pyStrip text) maxChars ctxType ctxPurpose = []) :
    fit env domain text maxChars ctxType ctxPurpose true =
      { original := pyStrip text,
        fitted := pyStrip (pySliceTo (pyStrip text) ((maxChars : Int) - 3)) ++ str "...",
        strategy_used := str "truncation", score := 1 / 10, truncated := true,
        changes_made := [str "Truncated"] } := by
  unfold fit
  rw [if_neg h1, if_neg h2, hc]
  rfl

theorem fit_eq_hardcut (env : FitEnv) (domain text : Str) (maxChars : Nat)
    (ctxType ctxPurpose : Option Str) (h1 : text ≠ [])
    (h2 : ¬(pyStrip text).length ≤ maxChars)
    (hc : fitCandidates env domain (pyStrip text) maxChars ctxType ctxPurpose = []) :
    fit env domain text maxChars ctxType ctxPurpose false =
      { original := pyStrip text, fitted := (pyStrip text).take maxChars,
        strategy_used := str "hard_cut", score := 0, truncated := true,
        overflow := true } := by
  unfold fit
  rw [if_neg h1, if_neg h2, hc]
  rfl

set_option maxRecDepth 10000 in
set_option maxHeartbeats 2000000 in
/-- Counterexample to claim C2 as stated: for `text = "hello"` and
`max_chars = 2` the truncation fallback computes
`"hello"[:2-3] = "hello"[:-1] = "hell"` (a negative Python slice) and
appends `"..."`, returning `fitted = "hell..."` of length 7 with
`overflow = false`. -/
theorem fit_overflow_invariant_counterexample :
    (fit ⟨fun _ _ => 0, none⟩ (str "general") (str "hello") 2 none none true).overflow =
        false ∧
      2 < (fit ⟨fun _ _ => 0, none⟩ (str "general")
        (str "hello") 2 none none true).fitted.length := by
  constructor
  · decide
  · decide

/-- Claim C2, amended: for every environment, text and `max_chars ≥ 3`,
a `FitResult` returned by `TextFitter.fit` with `overflow = false`
satisfies `len(fitted) ≤ max_chars`.  (For `max_chars < 3` the
truncation fallback slices with a negative bound and can exceed the
budget, as the counterexample shows.) -/
theorem fit_no_overflow_fits (env : FitEnv) (domain text : Str) (maxChars : Nat)
    (ctxType ctxPurpose : Option Str) (allowTruncation : Bool)
    (hmc : 3 ≤ maxChars)
    (hov : (fit env domain text maxChars ctxType ctxPurpose allowTruncation).overflow =
      false) :
    (fit env domain text maxChars ctxType ctxPurpose allowTruncation).fitted.length ≤
      maxChars := by
  by_cases h1 : text = []
  · subst h1
    rw [fit_eq_empty]
    exact Nat.zero_le maxChars
  by_cases h2 : (pyStrip text).length ≤ maxChars
  · rw [fit_eq_direct env domain text maxChars ctxType ctxPurpose allowTruncation h1 h2]
    exact h2
  cases hc : fitCandidates env domain (pyStrip text) maxChars ctxType ctxPurpose with
  | cons c cs =>
    rw [fit_eq_select env domain text maxChars ctxType ctxPurpose allowTruncation c cs h1 h2 hc]
    apply fitCandidates_fitted_le env domain (pyStrip text) maxChars ctxType ctxPurpose
    rw [hc]
    exact selectBest_mem c cs
  | nil =>
    cases allowTruncation with
    | true =>
      rw [fit_eq_trunc env domain text maxChars ctxType ctxPurpose h1 h2 hc]
      show (pyStrip (pySliceTo (pyStrip text) ((maxChars : Int) - 3)) ++ str "...").length ≤
        maxChars
      rw [List.length_append]
      have hsl : (pySliceTo (pyStrip text) ((maxChars : Int) - 3)).length ≤ maxChars - 3 := by
        unfold pySliceTo
        rw [if_pos (by omega : (0 : Int) ≤ (maxChars : Int) - 3)]
        have hn : ((maxChars : Int) - 3).toNat = maxChars - 3 := by omega
        rw [hn]
        exact List.length_take_le _ _
      have hps := pyStrip_length_le (pySliceTo (pyStrip text) ((maxChars : Int) - 3))
      have hdots : (str "...").length = 3 := rfl
      omega
    | false =>
      rw [fit_eq_hardcut env domain text maxChars ctxType ctxPurpose h1 h2 hc] at hov
      simp at hov

/-- Witness for C2 (amended): at `text = "hi"`, `max_chars = 3` the
hypotheses hold and the bound is realised. -/
theorem fit_no_overflow_fits_witness :
    ((3 : Nat) ≤ 3 ∧
        (fit ⟨fun _ _ => 0, none⟩ (str "general") (str "hi") 3 none none true).overflow =
          false) ∧
      (fit ⟨fun _ _ => 0, none⟩ (str "general")
        (str "hi") 3 none none true).fitted.length ≤ 3 :=
  ⟨⟨by decide, by decide⟩,
    fit_no_overflow_fits ⟨fun _ _ => 0, none⟩ (str "general") (str "hi") 3 none none true
      (by decide) (by decide)⟩

/-- Counterexample to claim C4 as stated: for `text = " hi "` and
`max_chars = 10` the fit is a direct fit with score 1.0, but
`fitted = "hi"` is the *stripped* text, not `text` unchanged. -/
theorem fit_direct_returns_stripped_counterexample :
    (fit ⟨fun _ _ => 0, none⟩ (str "general") (str " hi ") 10 none none
          true).strategy_used = str "direct_fit" ∧
      (fit ⟨fun _ _ => 0, none⟩ (str "general") (str " hi ") 10 none none true).score = 1 ∧
      (fit ⟨fun _ _ => 0, none⟩ (str "general") (str " hi ") 10 none none true).fitted ≠
        str " hi " := by
  refine ⟨by decide, by decide, by decide⟩

/-- Claim C4, amended: for every *non-empty* text with
`len(text) ≤ max_chars`, `fit` returns strategy `direct_fit` with score
1.0 and `fitted = text.strip()` (equal to `text` exactly when `text`
carries no surrounding whitespace; empty text returns strategy `empty`
with score 0 instead). -/
theorem fit_direct_amended (env : FitEnv) (domain text : Str) (maxChars : Nat)
    (ctxType ctxPurpose : Option Str) (allowTruncation : Bool)
    (h1 : text ≠ []) (h2 : text.length ≤ maxChars) :
    fit env domain text maxChars ctxType ctxPurpose allowTruncation =
      { original := pyStrip text, fitted := pyStrip text,
        strategy_used := str "direct_fit", score := 1 } :=
  fit_eq_direct env domain text maxChars ctxType ctxPurpose allowTruncation h1
    (le_trans (pyStrip_length_le text) h2)

/-- Witness for C4 (amended) at `text = "hi"`, `max_chars = 10`. -/
theorem fit_direct_amended_witness :
    ((str "hi" ≠ ([] : Str)) ∧ (str "hi").length ≤ 10) ∧
      fit ⟨fun _ _ => 0, none⟩ (str "general") (str "hi") 10 none none true =
        { original := pyStrip (str "hi"), fitted := pyStrip (str "hi"),
          strategy_used := str "direct_fit", score := 1 } :=
  ⟨⟨by decide, by decide⟩,
    fit_direct_amended ⟨fun _ _ => 0, none⟩ (str "general") (str "hi") 10 none none true
      (by decide) (by decide)⟩

/-- The scoring rule exactly as the specification sentence states it
(spec §4.3), with the sequence-similarity function abstract.  Used to
compare `_calculate_score` against the spec formula. -/
def scoreSpecFormula (seqSim : Str → Str → Rat) (original fitted : Str) : Rat :=
  if (fitted.length : Rat) / (original.length : Rat) < 1 / 5 then 2 / 5
  else min 1 (seqSim original fitted + 3 / 10)

/-- Claim C5: for every non-empty original and fitted string the scoring
function returns 0.4 when `len(fitted)/len(original) < 0.2` and
`min(1.0, similarity + 0.3)` otherwise, where the similarity is the
`SequenceMatcher` ratio of the lowercased strings.  (In Python an empty
`original` raises `ZeroDivisionError` and an empty `fitted` returns 0.0
through a guard, hence both non-emptiness hypotheses.) -/
theorem calculate_score_matches_spec (ratio : Str → Str → Rat) (original fitted : Str)
    (ho : original ≠ []) (hf : fitted ≠ []) :
    calculateScore ratio original fitted =
      scoreSpecFormula (fun a b => ratio (lowerStr a) (lowerStr b)) original fitted := by
  unfold calculateScore scoreSpecFormula
  rw [if_neg hf]

/-- Witness for C5 at `original = "abcde"`, `fitted = "x"` and a
constant similarity oracle. -/
theorem calculate_score_matches_spec_witness :
    ((str "abcde" ≠ ([] : Str)) ∧ (str "x" ≠ ([] : Str))) ∧
      calculateScore (fun _ _ => 1 / 2) (str "abcde") (str "x") =
        scoreSpecFormula
          (fun a b => (fun _ _ => (1 : Rat) / 2) (lowerStr a) (lowerStr b))
          (str "abcde") (str "x") :=
  ⟨⟨by decide, by decide⟩,
    calculate_score_matches_spec (fun _ _ => 1 / 2) (str "abcde") (str "x")
      (by decide) (by decide)⟩

/-! ## Fill orchestrator (`PdfFormWriter.fill` and helpers, `pdf_writer.py`) -/

/-- Embeds `FieldFillResult` (`pdf_writer.py`, lines 60-68). -/
structure FieldFillResult where
  field_name : Str
  success : Bool
  original_value : Str
  filled_value : Str
  error : Option Str := none
  fit_result : Option FitResult := none
deriving Repr, DecidableEq

/-- Embeds `FilledPdf` (lines 71-95).  The `output_path`/`output_bytes`
fields carry the serialized document and play no role in any claim; they
are omitted from the model. -/
structure FilledPdf where
  success : Bool
  field_results : List FieldFillResult := []
  errors : List Str := []
  warnings : List Str := []
deriving Repr, DecidableEq

/-- Embeds the derived counter `FilledPdf.fields_filled` (lines 89-91). -/
def FilledPdf.fields_filled (r : FilledPdf) : Nat :=
  (r.field_results.filter (fun x => x.success)).length

/-- Embeds the derived counter `FilledPdf.fields_failed` (lines 93-95). -/
def FilledPdf.fields_failed (r : FilledPdf) : Nat :=
  (r.field_results.filter (fun x => !x.success)).length

/-- The slice of a pypdf field dictionary consulted by `_fill_field`:
`/FT` (default `""`), `/MaxLen` (default absent) and the `/Ff` flags
(default 0). -/
structure FieldInfo where
  ft : Str := []
  maxLen : Option Nat := none
  ff : Nat := 0
deriving Repr, DecidableEq, Inhabited

/-- Embeds the purpose detection of `_fill_field` (lines 541-545). -/
def detectPurpose (name : Str) : Str :=
  if str "phone" <:+: lowerStr name ∨ str "mobile" <:+: lowerStr name then str "phone"
  else if str "date" <:+: lowerStr name ∨ str "dob" <:+: lowerStr name then str "date"
  else if str "ssn" <:+: lowerStr name then str "ssn"
  else str "text"

/-- The text-fitting step of `_fill_field` (lines 550-565): only for
text fields with a truthy `/MaxLen` whose transformed value is too long. -/
def fieldFitResult (fenv : FitEnv) (domain : Str) (info : FieldInfo) (value1 : Str)
    (purpose : Str) (fitText : Bool) : Option FitResult :=
  match info.maxLen with
  | some ml =>
    if fitText ∧ info.ft = str "/Tx" ∧ ml ≠ 0 ∧ ml < value1.length then
      some (fit fenv domain value1 ml (some (str "text")) (some purpose) true)
    else none
  | none => none

/-- Embeds `PdfFormWriter._fill_field` (lines 507-601).  All pypdf write
calls inside the `try` block are abstracted by `writeOutcome matched
value` (`some e` models a raised exception with message `e`, caught by
the handler at lines 593-601); everything else in the body is pure.  A
fuzzy oracle returning a name outside `fields` models the `KeyError`
raised by `fields[field_name]`, likewise caught. -/
def fillFieldM (menv : MatchEnv) (writeOutcome : Str → Str → Option Str) (fenv : FitEnv)
    (domain : Str) (fieldName value : Str) (fields : List (Str × FieldInfo))
    (fitText : Bool) : FieldFillResult :=
  match smartMatchField menv fieldName (fields.map Prod.fst) with
  | none =>
    { field_name := fieldName, success := false, original_value := value,
      filled_value := [], error := some (str "Field not found in PDF (tried fuzzy match)") }
  | some matched =>
    match fields.find? (fun p => p.1 == matched) with
    | none =>
      { field_name := matched, success := false, original_value := value,
        filled_value := [], error := some (str "KeyError") }
    | some p =>
      match writeOutcome matched
        (match fieldFitResult fenv domain p.2 (transform value (some (detectPurpose matched)))
            (detectPurpose matched) fitText with
         | some fr => fr.fitted
         | none => transform value (some (detectPurpose matched))) with
      | some e =>
        { field_name := matched, success := false, original_value := value,
          filled_value := [], error := some e }
      | none =>
        { field_name := matched, success := true, original_value := value,
          filled_value :=
            match fieldFitResult fenv domain p.2
                (transform value (some (detectPurpose matched))) (detectPurpose matched)
                fitText with
            | some fr => fr.fitted
            | none => transform value (some (detectPurpose matched)),
          fit_result := fieldFitResult fenv domain p.2
            (transform value (some (detectPurpose matched))) (detectPurpose matched) fitText }

/-- The schema fields produced by the visual re-parse (`parse_pdf` lives
outside these sources); only the attributes `_fill_overlay` reads are
modelled. -/
structure OverlayField where
  name : Str
  label : Option Str := none
  purpose : Option Str := none
  text_capacity : Option Nat := none
  page : Nat := 0
deriving Repr, DecidableEq

/-- Embeds `PdfFormWriter._find_data_for_field` (lines 302-330):
direct-name match, label match, `field_\d+_`-stripped base match over
all keys, then a fuzzy label match through the `difflib` oracle. -/
def findDataForField (menv : MatchEnv) (f : OverlayField)
    (data : List (Str × Str)) : Option Str :=
  match data.find? (fun (kv : Str × Str) => kv.1 == f.name) with
  | some kv => some kv.2
  | none =>
    match
      (match f.label with
       | some lbl =>
         if lbl ≠ [] then data.find? (fun (kv : Str × Str) => kv.1 == lbl) else none
       | none => none : Option (Str × Str)) with
    | some kv => some kv.2
    | none =>
      match data.find? (fun (kv : Str × Str) =>
          dropFieldNumPrefix kv.1 == dropFieldNumPrefix f.name) with
      | some kv => some kv.2
      | none =>
        match f.label with
        | some lbl =>
          if lbl ≠ [] then
            match menv.closeFull lbl (data.map Prod.fst) with
            | some m =>
              (data.find? (fun (kv : Str × Str) => kv.1 == m)).map (fun kv => kv.2)
            | none => none
          else none
        | none => none

/-- The value drawn for an overlay field (lines 388-395): purpose-based
transformation, then capacity-bounded fitting with the default fit
arguments. -/
def overlayValue (fenv : FitEnv) (domain : Str) (f : OverlayField) (v : Str) : Str :=
  match f.text_capacity with
  | some cap =>
    if cap ≠ 0 ∧ cap < (transform v f.purpose).length then
      (fit fenv domain (transform v f.purpose) cap none none true).fitted
    else transform v f.purpose
  | none => transform v f.purpose

/-- External state of the Overlay Renderer: reportlab availability, the
outcome of serializing + re-parsing the current document (the whole
`try` body of `_fill_overlay` funnels its exceptions into the `.error`
case, which becomes the `Visual filling failed` warning), the page
count, and per-field success of `canvas.drawString` (whose exceptions
are swallowed at lines 425-426 with only a log line). -/
structure OverlayEnv where
  reportlabAvailable : Bool := true
  parseResult : Except Str (List OverlayField) := .ok []
  numPages : Nat := 1
  drawOk : Str → Bool := fun _ => true

/-- The per-page, per-field overlay loop of `_fill_overlay`
(lines 366-427): for each page in order, each schema field on that page
with a non-empty matched value that draws successfully appends a fresh
`success = true` result. -/
def overlayDrawn (oenv : OverlayEnv) (menv : MatchEnv) (fenv : FitEnv) (domain : Str)
    (data : List (Str × Str)) (schemaFields : List OverlayField) : List FieldFillResult :=
  (List.range oenv.numPages).flatMap (fun i =>
    (schemaFields.filter (fun f => f.page == i)).filterMap (fun f =>
      match findDataForField menv f data with
      | none => none
      | some v =>
        if v = [] then none
        else if oenv.drawOk f.name then
          some { field_name := f.name, success := true,
                 original_value := overlayValue fenv domain f v,
                 filled_value := overlayValue fenv domain f v }
        else none))

/-- Embeds `PdfFormWriter._fill_overlay` (lines 332-447), returning the
appended field results and warnings. -/
def fillOverlay (oenv : OverlayEnv) (menv : MatchEnv) (fenv : FitEnv) (domain : Str)
    (data : List (Str × Str)) : List FieldFillResult × List Str :=
  if ¬oenv.reportlabAvailable then
    ([], [str "ReportLab required for visual form filling"])
  else
    match oenv.parseResult with
    | .error e => ([], [str "Visual filling failed: " ++ e])
    | .ok schemaFields =>
      if (overlayDrawn oenv menv fenv domain data schemaFields).isEmpty then
        ([], [str "No matching fields found for visual filling"])
      else (overlayDrawn oenv menv fenv domain data schemaFields, [])

/-- Environment of one `PdfFormWriter.fill` invocation: outcome of
opening the template and reading its fields, the external oracles, the
per-field write outcomes, and the outcomes of finalization
(serialization and optional flattening). -/
structure FillEnv where
  openResult : Except Str (List (Str × FieldInfo))
  menv : MatchEnv
  fenv : FitEnv
  oenv : OverlayEnv
  writeOutcome : Str → Str → Option Str
  serializeError : Option Str := none
  flattenError : Option Str := none

/-- Phase 1 of `fill` (lines 216-230): one `_fill_field` call per
`(key, value)` pair of `data`, in order. -/
def fillPrimaryResults (env : FillEnv) (domain : Str) (fields : List (Str × FieldInfo))
    (data : List (Str × Str)) (fitText : Bool) : List FieldFillResult :=
  data.map (fun kv => fillFieldM env.menv env.writeOutcome env.fenv domain kv.1 kv.2
    fields fitText)

/-- The warning recorded for a failed per-field result (line 228-230);
Python formats a `None` error as the string `"None"`. -/
def fieldWarning (key : Str) (err : Option Str) : Str :=
  str "Field '" ++ key ++ str "': " ++ (match err with | some m => m | none => str "None")

/-- The warnings appended during the Phase-1 loop, one per failed
result, keyed by the incoming data key. -/
def primaryWarnings (data : List (Str × Str)) (primary : List FieldFillResult) : List Str :=
  (data.zip primary).filterMap (fun p =>
    if p.2.success then none else some (fieldWarning p.1.1 p.2.error))

/-- Phase 2 preparation (lines 234-237): the dict
`failed_fields_map[res.field_name] = res.original_value` built from the
failed results. -/
def failedFieldsMap (primary : List FieldFillResult) : List (Str × Str) :=
  (primary.filterMap (fun r =>
    if r.success then none else some (r.field_name, r.original_value))).foldl pyDictInsert []

/-- Phase 2 of `fill` (lines 239-241): the hybrid overlay pass, run only
when some field failed AcroForm filling. -/
def hybridOverlayPart (env : FillEnv) (domain : Str) (fields : List (Str × FieldInfo))
    (data : List (Str × Str)) (fitText : Bool) : List FieldFillResult × List Str :=
  if (failedFieldsMap (fillPrimaryResults env domain fields data fitText)).isEmpty then
    ([], [])
  else
    fillOverlay env.oenv env.menv env.fenv domain
      (failedFieldsMap (fillPrimaryResults env domain fields data fitText))

/-- Phases 1-2 of `fill`: the accumulated field results and warnings.
With no AcroForm fields at all (lines 210-214) the overlay runs directly
over `data` behind an extra warning; otherwise the primary loop runs and
the hybrid pass appends its results after it. -/
def fillBody (env : FillEnv) (domain : Str) (fields : List (Str × FieldInfo))
    (data : List (Str × Str)) (fitText : Bool) : List FieldFillResult × List Str :=
  if fields.isEmpty then
    ((fillOverlay env.oenv env.menv env.fenv domain data).1,
     str "No AcroForm fields found. Attempting visual filling." ::
       (fillOverlay env.oenv env.menv env.fenv domain data).2)
  else
    (fillPrimaryResults env domain fields data fitText ++
       (hybridOverlayPart env domain fields data fitText).1,
     primaryWarnings data (fillPrimaryResults env domain fields data fitText) ++
       (hybridOverlayPart env domain fields data fitText).2)

/-- The warning appended by a failing flatten pass (lines 260-279),
which is requested by the `flatten` flag and recovered locally. -/
def flattenWarnings (env : FillEnv) (flatten : Bool) : List Str :=
  if flatten then
    match env.flattenError with
    | some e => [str "Flattening partially failed: " ++ e]
    | none => []
  else []

/-- Embeds `PdfFormWriter.fill` (lines 183-300).  The outer `try` is
modelled by the two `Except`/`Option` outcomes: a failure to open the
template aborts before any field work (lines 291-298 set
`success = False` and append the message to `errors`), and a
serialization failure during finalization does the same while keeping
the accumulated results and warnings.  In every case a `FilledPdf` is
returned — the function is total. -/
def fill (env : FillEnv) (domain : Str) (data : List (Str × Str))
    (flatten fitText : Bool) : FilledPdf :=
  match env.openResult with
  | .error e => { success := false, field_results := [], errors := [e], warnings := [] }
  | .ok fields =>
    match env.serializeError with
    | some e =>
      { success := false,
        field_results := (fillBody env domain fields data fitText).1,
        errors := [e],
        warnings := (fillBody env domain fields data fitText).2 ++
          flattenWarnings env flatten }
    | none =>
      { success := true,
        field_results := (fillBody env domain fields data fitText).1,
        errors := [],
        warnings := (fillBody env domain fields data fitText).2 ++
          flattenWarnings env flatten }

/-! ## Orchestrator theorems (claims C1, C3, C8) -/

theorem fillOverlay_results_success (oenv : OverlayEnv) (menv : MatchEnv) (fenv : FitEnv)
    (domain : Str) (data : List (Str × Str)) :
    ∀ r ∈ (fillOverlay oenv menv fenv domain data).1, r.success = true := by
  intro r hr
  by_cases hrl : (¬oenv.reportlabAvailable = true)
  · have he : fillOverlay oenv menv fenv domain data =
        ([], [str "ReportLab required for visual form filling"]) := by
      unfold fillOverlay
      rw [if_pos hrl]
    rw [he] at hr
    exact absurd hr (List.not_mem_nil r)
  · cases hp : oenv.parseResult with
    | error e =>
      have he : fillOverlay oenv menv fenv domain data =
          ([], [str "Visual filling failed: " ++ e]) := by
        unfold fillOverlay
        rw [if_neg hrl, hp]
      rw [he] at hr
      exact absurd hr (List.not_mem_nil r)
    | ok schemaFields =>
      by_cases hde : (overlayDrawn oenv menv fenv domain data schemaFields).isEmpty = true
      · have he : fillOverlay oenv menv fenv domain data =
            ([], [str "No matching fields found for visual filling"]) := by
          unfold fillOverlay
          rw [if_neg hrl, hp]
          show (if (overlayDrawn oenv menv fenv domain data schemaFields).isEmpty = true
            then (([] : List FieldFillResult),
              [str "No matching fields found for visual filling"])
            else (overlayDrawn oenv menv fenv domain data schemaFields, [])) = _
          rw [if_pos hde]
        rw [he] at hr
        exact absurd hr (List.not_mem_nil r)
      · have he : fillOverlay oenv menv fenv domain data =
            (overlayDrawn oenv menv fenv domain data schemaFields, []) := by
          unfold fillOverlay
          rw [if_neg hrl, hp]
          show (if (overlayDrawn oenv menv fenv domain data schemaFields).isEmpty = true
            then (([] : List FieldFillResult),
              [str "No matching fields found for visual filling"])
            else (overlayDrawn oenv menv fenv domain data schemaFields, [])) = _
          rw [if_neg hde]
        rw [he] at hr
        have hr2 : r ∈ overlayDrawn oenv menv fenv domain data schemaFields := hr
        unfold overlayDrawn at hr2
        rcases List.mem_flatMap.mp hr2 with ⟨i, _, hi⟩
        rcases List.mem_filterMap.mp hi with ⟨f, _, heq⟩
        cases hfd : findDataForField menv f data with
        | none =>
          rw [hfd] at heq
          exact absurd heq (by simp)
        | some v =>
          rw [hfd] at heq
          have heq2 : (if v = [] then (none : Option FieldFillResult)
              else if oenv.drawOk f.name = true then
                some { field_name := f.name, success := true,
                       original_value := overlayValue fenv domain f v,
                       filled_value := overlayValue fenv domain f v }
              else none) = some r := heq
          split_ifs at heq2 with h1 h2 <;>
            first
              | (rcases Option.some.inj heq2 with rfl
                 rfl)
              | simp at heq2

/-- Fuzzy oracle that never matches, modelling `difflib` finding no
candidate above the cutoff. -/
def oracleNone : MatchEnv := ⟨fun _ _ => none, fun _ _ => none⟩

/-- Fit environment with a constant similarity oracle and no LLM
service. -/
def fitEnvNone : FitEnv := ⟨fun _ _ => 0, none⟩

/-- Concrete fill environment for the hybrid scenario: one AcroForm
field `Name`, a requested key `zzqq` that no strategy matches, and a
visual schema exposing a field named `zzqq` that draws successfully. -/
def hybridExampleEnv : FillEnv :=
  { openResult := .ok [(str "Name", { ft := str "/Tx" })],
    menv := oracleNone, fenv := fitEnvNone,
    oenv := { reportlabAvailable := true, parseResult := .ok [{ name := str "zzqq" }],
              numPages := 1, drawOk := fun _ => true },
    writeOutcome := fun _ _ => none }

/-- Counterexample to claim C1 as stated: in the hybrid run below the
overlay draws the value of the field whose primary fill failed, yet the
failed `FieldFillResult` is *not* upgraded — a second, fresh success
result is appended instead, so the field counts once in `fields_filled`
*and* once in `fields_failed` (the claim requires `fields_failed = 0`
here). -/
theorem hybrid_upgrade_counterexample :
    (fill hybridExampleEnv (str "general") [(str "zzqq", str "John")] false
          true).fields_filled = 1 ∧
      (fill hybridExampleEnv (str "general") [(str "zzqq", str "John")] false
          true).fields_failed = 1 ∧
      (fill hybridExampleEnv (str "general") [(str "zzqq", str "John")] false
          true).field_results.length = 2 := by
  refine ⟨by decide, by decide, by decide⟩

/-- Claim C1, amended: a Hybrid-phase overlay success *appends* a new
`success = true` `FieldFillResult` after the primary results; the failed
primary result is retained, so an overlay-recovered field is counted
once in `fields_filled` and still once in `fields_failed`. -/
theorem hybrid_overlay_appends (env : FillEnv) (domain : Str) (data : List (Str × Str))
    (flatten fitText : Bool) (fields : List (Str × FieldInfo))
    (hopen : env.openResult = .ok fields) (hne : fields ≠ []) :
    (fill env domain data flatten fitText).field_results =
      fillPrimaryResults env domain fields data fitText ++
        (hybridOverlayPart env domain fields data fitText).1 ∧
    (∀ r ∈ (hybridOverlayPart env domain fields data fitText).1, r.success = true) ∧
    (fill env domain data flatten fitText).fields_filled =
      ((fillPrimaryResults env domain fields data fitText).filter
          (fun r => r.success)).length +
        ((hybridOverlayPart env domain fields data fitText).1).length ∧
    (fill env domain data flatten fitText).fields_failed =
      ((fillPrimaryResults env domain fields data fitText).filter
          (fun r => !r.success)).length := by
  have hfe : fields.isEmpty = false := by
    cases fields with
    | nil => exact absurd rfl hne
    | cons a l => rfl
  have hcond : ¬(fields.isEmpty = true) := by
    rw [hfe]
    exact Bool.false_ne_true
  have hbody1 : (fillBody env domain fields data fitText).1 =
      fillPrimaryResults env domain fields data fitText ++
        (hybridOverlayPart env domain fields data fitText).1 := by
    unfold fillBody
    rw [if_neg hcond]
  have hfillfr : (fill env domain data flatten fitText).field_results =
      (fillBody env domain fields data fitText).1 := by
    unfold fill
    rw [hopen]
    cases hser : env.serializeError with
    | some e => rfl
    | none => rfl
  have hhyb : ∀ r ∈ (hybridOverlayPart env domain fields data fitText).1,
      r.success = true := by
    intro r hr
    unfold hybridOverlayPart at hr
    split at hr
    · exact absurd hr (List.not_mem_nil r)
    · exact fillOverlay_results_success _ _ _ _ _ r hr
  refine ⟨by rw [hfillfr, hbody1], hhyb, ?_, ?_⟩
  · unfold FilledPdf.fields_filled
    rw [hfillfr, hbody1, List.filter_append, List.length_append]
    have hself : ((hybridOverlayPart env domain fields data fitText).1).filter
        (fun r => r.success) = (hybridOverlayPart env domain fields data fitText).1 :=
      List.filter_eq_self.mpr hhyb
    rw [hself]
  · unfold FilledPdf.fields_failed
    rw [hfillfr, hbody1, List.filter_append]
    have hnil : ((hybridOverlayPart env domain fields data fitText).1).filter
        (fun r => !r.success) = [] := by
      rw [List.filter_eq_nil_iff]
      intro r hr
      rw [hhyb r hr]
      exact Bool.not_true ▸ (by simp)
    rw [hnil, List.length_append, List.length_nil]
    omega

/-- Witness for C1 (amended) at the concrete hybrid environment. -/
theorem hybrid_overlay_appends_witness :
    (hybridExampleEnv.openResult =
        .ok [(str "Name", ({ ft := str "/Tx" } : FieldInfo))] ∧
      ([(str "Name", ({ ft := str "/Tx" } : FieldInfo))] :
        List (Str × FieldInfo)) ≠ []) ∧
      ((fill hybridExampleEnv (str "general") [(str "zzqq", str "John")] false
          true).field_results =
        fillPrimaryResults hybridExampleEnv (str "general")
            [(str "Name", { ft := str "/Tx" })] [(str "zzqq", str "John")] true ++
          (hybridOverlayPart hybridExampleEnv (str "general")
            [(str "Name", { ft := str "/Tx" })] [(str "zzqq", str "John")] true).1 ∧
      (∀ r ∈ (hybridOverlayPart hybridExampleEnv (str "general")
          [(str "Name", { ft := str "/Tx" })] [(str "zzqq", str "John")] true).1,
        r.success = true) ∧
      (fill hybridExampleEnv (str "general") [(str "zzqq", str "John")] false
          true).fields_filled =
        ((fillPrimaryResults hybridExampleEnv (str "general")
            [(str "Name", { ft := str "/Tx" })] [(str "zzqq", str "John")] true).filter
            (fun r => r.success)).length +
          ((hybridOverlayPart hybridExampleEnv (str "general")
            [(str "Name", { ft := str "/Tx" })] [(str "zzqq", str "John")] true).1).length ∧
      (fill hybridExampleEnv (str "general") [(str "zzqq", str "John")] false
          true).fields_failed =
        ((fillPrimaryResults hybridExampleEnv (str "general")
            [(str "Name", { ft := str "/Tx" })] [(str "zzqq", str "John")] true).filter
            (fun r => !r.success)).length) :=
  ⟨⟨rfl, by decide⟩,
    hybrid_overlay_appends hybridExampleEnv (str "general") [(str "zzqq", str "John")]
      false true [(str "Name", { ft := str "/Tx" })] rfl (by decide)⟩

/-- Claim C3: under an opened template with AcroForm fields, `fill`
always returns a `FilledPdf` (the model is a total function): the
per-field loop produces exactly one result per `(key, value)` pair and
never aborts, every failed per-field result contributes a warning keyed
by its data key, and only a document-level serialization failure flips
`success` to `false` while appending its message to `errors`. -/
theorem fill_error_recovery (env : FillEnv) (domain : Str) (data : List (Str × Str))
    (flatten fitText : Bool) (fields : List (Str × FieldInfo))
    (hopen : env.openResult = .ok fields) (hne : fields ≠ []) :
    (fillPrimaryResults env domain fields data fitText).length = data.length ∧
    (fill env domain data flatten fitText).field_results.take data.length =
      fillPrimaryResults env domain fields data fitText ∧
    (∀ kv r, (kv, r) ∈ data.zip (fillPrimaryResults env domain fields data fitText) →
      r.success = false →
      fieldWarning kv.1 r.error ∈ (fill env domain data flatten fitText).warnings) ∧
    (env.serializeError = none →
      (fill env domain data flatten fitText).success = true ∧
      (fill env domain data flatten fitText).errors = []) ∧
    (∀ e, env.serializeError = some e →
      (fill env domain data flatten fitText).success = false ∧
      (fill env domain data flatten fitText).errors = [e]) := by
  have hlen : (fillPrimaryResults env domain fields data fitText).length = data.length := by
    unfold fillPrimaryResults
    exact List.length_map _ _
  have hcond : ¬(fields.isEmpty = true) := by
    cases fields with
    | nil => exact absurd rfl hne
    | cons a l => exact Bool.false_ne_true
  have hbody1 : (fillBody env domain fields data fitText).1 =
      fillPrimaryResults env domain fields data fitText ++
        (hybridOverlayPart env domain fields data fitText).1 := by
    unfold fillBody
    rw [if_neg hcond]
  have hbody2 : (fillBody env domain fields data fitText).2 =
      primaryWarnings data (fillPrimaryResults env domain fields data fitText) ++
        (hybridOverlayPart env domain fields data fitText).2 := by
    unfold fillBody
    rw [if_neg hcond]
  have hfillfr : (fill env domain data flatten fitText).field_results =
      (fillBody env domain fields data fitText).1 := by
    unfold fill
    rw [hopen]
    cases hser : env.serializeError with
    | some e => rfl
    | none => rfl
  have hfillw : (fill env domain data flatten fitText).warnings =
      (fillBody env domain fields data fitText).2 ++ flattenWarnings env flatten := by
    unfold fill
    rw [hopen]
    cases hser : env.serializeError with
    | some e => rfl
    | none => rfl
  refine ⟨hlen, ?_, ?_, ?_, ?_⟩
  · rw [hfillfr, hbody1, ← hlen]
    exact List.take_left _ _
  · intro kv r hmem hfail
    have hw : fieldWarning kv.1 r.error ∈
        primaryWarnings data (fillPrimaryResults env domain fields data fitText) := by
      unfold primaryWarnings
      apply List.mem_filterMap.mpr
      refine ⟨(kv, r), hmem, ?_⟩
      simp only [hfail]
      rfl
    rw [hfillw, hbody2, List.append_assoc]
    exact List.mem_append.mpr (Or.inl hw)
  · intro hser
    unfold fill
    rw [hopen, hser]
    exact ⟨rfl, rfl⟩
  · intro e hser
    unfold fill
    rw [hopen, hser]
    exact ⟨rfl, rfl⟩

/-- Witness for C3 at the concrete hybrid environment with one
requested field. -/
theorem fill_error_recovery_witness :
    (hybridExampleEnv.openResult =
        .ok [(str "Name", ({ ft := str "/Tx" } : FieldInfo))] ∧
      ([(str "Name", ({ ft := str "/Tx" } : FieldInfo))] :
        List (Str × FieldInfo)) ≠ []) ∧
      ((fillPrimaryResults hybridExampleEnv (str "general")
          [(str "Name", { ft := str "/Tx" })] [(str "zzqq", str "John")] true).length =
        ([(str "zzqq", str "John")] : List (Str × Str)).length ∧
      (fill hybridExampleEnv (str "general") [(str "zzqq", str "John")] false
          true).field_results.take ([(str "zzqq", str "John")] : List (Str × Str)).length =
        fillPrimaryResults hybridExampleEnv (str "general")
          [(str "Name", { ft := str "/Tx" })] [(str "zzqq", str "John")] true ∧
      (∀ kv r, (kv, r) ∈ ([(str "zzqq", str "John")] : List (Str × Str)).zip
          (fillPrimaryResults hybridExampleEnv (str "general")
            [(str "Name", { ft := str "/Tx" })] [(str "zzqq", str "John")] true) →
        r.success = false →
        fieldWarning kv.1 r.error ∈
          (fill hybridExampleEnv (str "general") [(str "zzqq", str "John")] false
            true).warnings) ∧
      (hybridExampleEnv.serializeError = none →
        (fill hybridExampleEnv (str "general") [(str "zzqq", str "John")] false
            true).success = true ∧
        (fill hybridExampleEnv (str "general") [(str "zzqq", str "John")] false
            true).errors = []) ∧
      (∀ e, hybridExampleEnv.serializeError = some e →
        (fill hybridExampleEnv (str "general") [(str "zzqq", str "John")] false
            true).success = false ∧
        (fill hybridExampleEnv (str "general") [(str "zzqq", str "John")] false
            true).errors = [e])) :=
  ⟨⟨rfl, by decide⟩,
    fill_error_recovery hybridExampleEnv (str "general") [(str "zzqq", str "John")]
      false true [(str "Name", { ft := str "/Tx" })] rfl (by decide)⟩

/-- Concrete fill environment in which the only requested field fails
AcroForm matching and the visual re-parse exposes no fields, so every
per-field result is a failure while opening and serialization succeed. -/
def allFailExampleEnv : FillEnv :=
  { openResult := .ok [(str "Name", { ft := str "/Tx" })],
    menv := oracleNone, fenv := fitEnvNone,
    oenv := { reportlabAvailable := true, parseResult := .ok [],
              numPages := 1, drawOk := fun _ => true },
    writeOutcome := fun _ _ => none }

/-- Claim C8: every `FilledPdf` returned by `fill` has `success = true`
iff its `errors` list is empty — warnings and failed per-field results
never flip `success` — and concretely a run in which every requested
field fails still returns `success = true` once the document was opened
and serialized. -/
theorem fill_success_iff_no_errors :
    (∀ (env : FillEnv) (domain : Str) (data : List (Str × Str)) (flatten fitText : Bool),
      ((fill env domain data flatten fitText).success = true ↔
        (fill env domain data flatten fitText).errors = [])) ∧
    ((fill allFailExampleEnv (str "general") [(str "zzqq", str "v")] false true).success =
        true ∧
      (fill allFailExampleEnv (str "general") [(str "zzqq", str "v")] false
          true).fields_failed = 1 ∧
      (fill allFailExampleEnv (str "general") [(str "zzqq", str "v")] false
          true).fields_filled = 0) := by
  constructor
  · intro env domain data flatten fitText
    unfold fill
    cases hopen : env.openResult with
    | error e => simp
    | ok fields =>
      cases hser : env.serializeError with
      | some e => simp
      | none => simp
  · refine ⟨by decide, by decide, by decide⟩
